import Mathlib

/-!
Shallow embedding of the kv key/value store (kv.go): an in-memory map whose
mutations all run through a single update queue, one at a time, and are
optionally recorded in an append-only write-ahead log that is replayed when
the store is constructed.

The Go channel round trip (queueUpdate sending an update on the updates
channel and the readUpdates goroutine answering on the update's result
channel) is modelled by the pure function readUpdate, which processes one
update exactly as one iteration of the readUpdates loop does, and by the
function readUpdates, which folds it over a finite queue.  File-system
effects are modelled explicitly: the log file is a list of lines held in the
state, and the environment's choices (does json.Marshal fail, does the write
fail, does os.OpenFile fail, why did the scanner stop) are passed as inputs.
-/

namespace KV

/-- Error values produced by the store: the errors built by appendUpdate and
readUpdates, plus the two construction-time failures (open and unmarshal). -/
inductive KVErr where
  /-- appendUpdate was called while the store has no log (Go: s.log == nil). -/
  | noLog
  /-- json.Marshal of the update failed inside appendUpdate. -/
  | marshalFailure
  /-- the write of the serialized line to the log file failed, or the log
  file could not be opened. -/
  | ioFailure
  /-- readUpdates hit an update whose type tag is neither 0 (set) nor 1
  (unset); carries the offending tag. -/
  | unknownOperation (tag : Nat)
  /-- json.Unmarshal of a log line failed during replay. -/
  | deserializationFailure
deriving DecidableEq

/-- Environment choice for one append attempt: which step of appendUpdate
fails, if any (none means marshalling and the file write both succeed). -/
inductive Fault where
  | marshal
  | write
deriving DecidableEq

/-- The serialized fields of an update, as marshalled to one JSON log line:
the exported fields UpdateType, Key and Value of the Go update struct.  The
Go tag is a uint8; it is modelled as Nat, since only 0, 1 and "anything
else" are distinguished by the code. -/
structure Rec (K V : Type) where
  UpdateType : Nat
  Key : K
  Value : V
deriving DecidableEq

/-- One line of the log file: either a line that deserializes to a record,
or a malformed line on which json.Unmarshal fails. -/
inductive LogLine (K V : Type) where
  | record : Rec K V → LogLine K V
  | malformed : LogLine K V
deriving DecidableEq

/-- A request to update the state of the store (Go: struct update).  The
result channel is modelled by the UpdateResult value readUpdate returns. -/
structure Update (K V : Type) where
  UpdateType : Nat
  Key : K
  Value : V
  append : Bool
deriving DecidableEq

/-- The result of an update operation (Go: struct updateResult). -/
structure UpdateResult where
  ok : Bool
  err : Option KVErr
deriving DecidableEq

/-- The store state: the backing map (modelled by its lookup function),
whether a write-ahead log is configured (Go: s.log != nil), and the current
contents of the log file. -/
structure StoreState (K V : Type) where
  data : K → Option V
  hasLog : Bool
  file : List (LogLine K V)

variable {K V : Type} [DecidableEq K]

/-- The record an update serializes to: json.Marshal keeps only the exported
fields UpdateType, Key and Value (append and result are unexported). -/
def recOf (u : Update K V) : Rec K V :=
  ⟨u.UpdateType, u.Key, u.Value⟩

/-- Go appendUpdate: errors when the store has no log, when marshalling
fails, or when the file write fails; otherwise appends exactly one line to
the log file and reports success. -/
def appendUpdate (st : StoreState K V) (u : Update K V) (fault : Option Fault) :
    Except KVErr (List (LogLine K V)) :=
  if st.hasLog = false then .error .noLog
  else
    match fault with
    | some .marshal => .error .marshalFailure
    | some .write => .error .ioFailure
    | none => .ok (st.file ++ [.record (recOf u)])

/-- The switch statement of readUpdates: tag 0 stores the key/value pair,
tag 1 deletes the key, and any other tag answers an unknownOperation failure
and leaves the map untouched. -/
def applyUpdate (st : StoreState K V) (u : Update K V) :
    StoreState K V × UpdateResult :=
  if u.UpdateType = 0 then
    ({ st with data := fun k => if k = u.Key then some u.Value else st.data k },
      ⟨true, none⟩)
  else if u.UpdateType = 1 then
    ({ st with data := fun k => if k = u.Key then none else st.data k },
      ⟨true, none⟩)
  else
    (st, ⟨false, some (.unknownOperation u.UpdateType)⟩)

/-- One iteration of the readUpdates loop: when the update carries the
append flag, appendUpdate runs first, and a failed append answers the
failure and leaves the state untouched (the Go loop continues with the next
update); otherwise the switch runs on the state with the extended log. -/
def readUpdate (st : StoreState K V) (u : Update K V) (fault : Option Fault) :
    StoreState K V × UpdateResult :=
  if u.append then
    match appendUpdate st u fault with
    | .error e => (st, ⟨false, some e⟩)
    | .ok newFile => applyUpdate { st with file := newFile } u
  else
    applyUpdate st u

/-- The readUpdates loop over a finite queue of updates, each paired with
the environment choice for its append attempt; produces the final state and
the result answered on each update's result channel, in queue order. -/
def readUpdates (st : StoreState K V)
    (us : List (Update K V × Option Fault)) :
    StoreState K V × List UpdateResult :=
  match us with
  | [] => (st, [])
  | (u, f) :: rest =>
    let p := readUpdate st u f
    let q := readUpdates p.1 rest
    (q.1, p.2 :: q.2)

/-- Go queueUpdate, after the channel round trip: the error handed back to
the caller is the result's error when the result is not ok and carries a
non-nil error, and nil otherwise. -/
def queueUpdate (r : UpdateResult) : Option KVErr :=
  if !r.ok && r.err.isSome then r.err else none

/-- Go Get: a direct map lookup; when the key is absent, found is false and
the value returned is the zero value of V (modelled by default). -/
def Get [Inhabited V] (st : StoreState K V) (key : K) : V × Bool :=
  match st.data key with
  | some v => (v, true)
  | none => (default, false)

/-- Go Set: builds a tag-0 update whose append flag is set exactly when a
log is configured, queues it, and returns the new state together with the
error surfaced to the caller. -/
def Set (st : StoreState K V) (key : K) (value : V) (fault : Option Fault) :
    StoreState K V × Option KVErr :=
  let p := readUpdate st ⟨0, key, value, st.hasLog⟩ fault
  (p.1, queueUpdate p.2)

/-- Go Unset: builds a tag-1 update carrying the zero value of V, with the
append flag set exactly when a log is configured. -/
def Unset [Inhabited V] (st : StoreState K V) (key : K) (fault : Option Fault) :
    StoreState K V × Option KVErr :=
  let p := readUpdate st ⟨1, key, default, st.hasLog⟩ fault
  (p.1, queueUpdate p.2)

/-- Why the scanner loop of replayUpdatesFromLog stopped: end of file, or a
read failure (Go: bufio.Scanner.Scan returned false with scanner.Err() set;
the code never consults scanner.Err()). -/
inductive ScanEnd where
  | eof
  | ioError
deriving DecidableEq

/-- The scanner loop of replayUpdatesFromLog: scan the lines in file order;
a malformed line aborts replay with the unmarshal error; each well-formed
line is queued as an update whose unexported append flag keeps its zero
value false, and the error queueUpdate returns is discarded.  When the
scanner stops the loop returns nil without examining the end cause. -/
def scanUpdates (st : StoreState K V) (lines : List (LogLine K V))
    (endCause : ScanEnd) : Except KVErr (StoreState K V) :=
  match lines with
  | [] => .ok st
  | .malformed :: _ => .error .deserializationFailure
  | .record r :: rest =>
    scanUpdates (readUpdate st ⟨r.UpdateType, r.Key, r.Value, false⟩ none).1
      rest endCause

/-- Go replayUpdatesFromLog: errors when the store has no log, and otherwise
runs the scanner loop over the log's lines. -/
def replayUpdatesFromLog (st : StoreState K V) (lines : List (LogLine K V))
    (endCause : ScanEnd) : Except KVErr (StoreState K V) :=
  if st.hasLog = false then .error .noLog
  else scanUpdates st lines endCause

/-- The opened log file as NewStore sees it when a log path is configured:
whether os.OpenFile fails, the lines the scanner will deliver, and why the
scan ends. -/
structure LogFile (K V : Type) where
  openFails : Bool
  lines : List (LogLine K V)
  endCause : ScanEnd

/-- Go NewStore: with no log path (cfg = none) the store starts empty and
memory-only; with a log path, an open failure surfaces to the caller, and
otherwise the log is replayed before the store is returned, a replay error
surfacing to the caller with no store instance. -/
def NewStore (cfg : Option (LogFile K V)) : Except KVErr (StoreState K V) :=
  match cfg with
  | none => .ok ⟨fun _ => none, false, []⟩
  | some f =>
    if f.openFails then .error .ioFailure
    else replayUpdatesFromLog ⟨fun _ => none, true, f.lines⟩ f.lines f.endCause

/-- A facade write operation, as issued by a single sequential caller. -/
inductive Op (K V : Type) where
  | set : K → V → Op K V
  | unset : K → Op K V

/-- Run one facade operation with no append fault, keeping the state. -/
def runOp [Inhabited V] (st : StoreState K V) (op : Op K V) : StoreState K V :=
  match op with
  | .set k v => (Set st k v none).1
  | .unset k => (Unset st k none).1

/-- Run a sequence of facade operations in order. -/
def runOps [Inhabited V] (st : StoreState K V) (ops : List (Op K V)) :
    StoreState K V :=
  List.foldl runOp st ops

/-- The apply function of the specification, on the map's lookup function: a
tag-0 record inserts its key/value pair, a tag-1 record removes its key, and
a record of any other tag leaves the map unchanged. -/
def applyRec (m : K → Option V) (r : Rec K V) : K → Option V :=
  if r.UpdateType = 0 then fun k => if k = r.Key then some r.Value else m k
  else if r.UpdateType = 1 then fun k => if k = r.Key then none else m k
  else m

/-- The record a facade operation durably writes: Set writes tag 0 with its
value, Unset writes tag 1 with the zero value of V. -/
def opRec [Inhabited V] (op : Op K V) : Rec K V :=
  match op with
  | .set k v => ⟨0, k, v⟩
  | .unset k => ⟨1, k, default⟩

/-! Helper lemmas about single steps of the machine. -/

theorem applyUpdate_fst (st : StoreState K V) (u : Update K V) :
    (applyUpdate st u).1 = { st with data := applyRec st.data (recOf u) } := by
  simp only [applyUpdate, applyRec, recOf]
  split
  · rfl
  · split
    · rfl
    · rfl

theorem readUpdate_not_append (st : StoreState K V) (u : Update K V)
    (fault : Option Fault) (h : u.append = false) :
    readUpdate st u fault = applyUpdate st u := by
  simp [readUpdate, h]

theorem readUpdate_append_none (st : StoreState K V) (u : Update K V)
    (h : u.append = true) (hl : st.hasLog = true) :
    readUpdate st u none =
      applyUpdate { st with file := st.file ++ [.record (recOf u)] } u := by
  simp [readUpdate, h, appendUpdate, hl]

theorem scanUpdates_records (ec : ScanEnd) (recs : List (Rec K V)) :
    ∀ st : StoreState K V,
      scanUpdates st (recs.map .record) ec =
        .ok { st with data := recs.foldl applyRec st.data } := by
  induction recs with
  | nil => intro st; rfl
  | cons r rest ih =>
    intro st
    rw [List.map_cons]
    show scanUpdates
        (readUpdate st ⟨r.UpdateType, r.Key, r.Value, false⟩ none).1
        (rest.map .record) ec = _
    rw [readUpdate_not_append _ _ _ rfl, applyUpdate_fst, ih]
    rfl

theorem runOp_durable [Inhabited V] (st : StoreState K V) (op : Op K V)
    (h : st.hasLog = true) :
    runOp st op =
      { st with data := applyRec st.data (opRec op),
                file := st.file ++ [.record (opRec op)] } := by
  cases op with
  | set k v =>
    show (readUpdate st ⟨0, k, v, st.hasLog⟩ none).1 = _
    rw [h, readUpdate_append_none _ _ rfl h, applyUpdate_fst]
    simp [recOf, opRec, h]
  | unset k =>
    show (readUpdate st ⟨1, k, default, st.hasLog⟩ none).1 = _
    rw [h, readUpdate_append_none _ _ rfl h, applyUpdate_fst]
    simp [recOf, opRec, h]

theorem runOps_durable [Inhabited V] (ops : List (Op K V)) :
    ∀ st : StoreState K V, st.hasLog = true →
      runOps st ops =
        { st with data := (ops.map opRec).foldl applyRec st.data,
                  file := st.file ++ (ops.map opRec).map LogLine.record } := by
  induction ops with
  | nil => intro st h; simp [runOps]
  | cons op rest ih =>
    intro st h
    show runOps (runOp st op) rest = _
    rw [runOp_durable st op h,
      ih { st with data := applyRec st.data (opRec op),
                   file := st.file ++ [LogLine.record (opRec op)] } h]
    simp [List.append_assoc]

theorem NewStore_records (recs : List (Rec K V)) (ec : ScanEnd) :
    NewStore (some (⟨false, recs.map .record, ec⟩ : LogFile K V)) =
      .ok ⟨recs.foldl applyRec (fun _ => none), true, recs.map .record⟩ := by
  show scanUpdates (⟨fun _ => none, true, recs.map .record⟩ : StoreState K V)
    (recs.map .record) ec = _
  rw [scanUpdates_records]

/-! The claims. -/

/-- Claim C1: for every finite sequence of Set and Unset operations applied
to a store configured with a log path, constructing a second store against
the same log path (the log file now holding the records the first store
appended) yields an in-memory map equal to the first store's final map:
replay of the appended records reproduces the final state. -/
theorem roundTripReplay [Inhabited V] (ops : List (Op K V)) :
    ∃ st₀ st₂ : StoreState K V,
      NewStore (some (⟨false, [], .eof⟩ : LogFile K V)) = .ok st₀ ∧
      NewStore (some (⟨false, (runOps st₀ ops).file, .eof⟩ : LogFile K V)) =
        .ok st₂ ∧
      st₂.data = (runOps st₀ ops).data := by
  have h1 : runOps (⟨fun _ => none, true, []⟩ : StoreState K V) ops =
      ⟨(ops.map opRec).foldl applyRec (fun _ => none), true,
        (ops.map opRec).map LogLine.record⟩ := by
    rw [runOps_durable ops _ rfl]
    simp
  refine ⟨⟨fun _ => none, true, []⟩,
    ⟨(ops.map opRec).foldl applyRec (fun _ => none), true,
      (ops.map opRec).map LogLine.record⟩, rfl, ?_, ?_⟩
  · rw [h1]
    exact NewStore_records (ops.map opRec) .eof
  · rw [h1]

/-- Claim C2: after startup replay of well-formed records whose kind tags
are all 0 or 1, followed by any finite sequence of facade mutations, the
in-memory map equals the left fold of the apply function (tag 0 inserts the
key/value pair, tag 1 removes the key) over the replayed records followed by
the applied mutations' records, starting from the empty map, in apply
order. -/
theorem mapEqualsFold [Inhabited V] (recs : List (Rec K V)) (ops : List (Op K V))
    (h : ∀ r ∈ recs, r.UpdateType = 0 ∨ r.UpdateType = 1) :
    ∃ st₀ : StoreState K V,
      NewStore (some (⟨false, recs.map .record, .eof⟩ : LogFile K V)) = .ok st₀ ∧
      (runOps st₀ ops).data =
        (recs ++ ops.map opRec).foldl applyRec (fun _ => none) := by
  refine ⟨⟨recs.foldl applyRec (fun _ => none), true, recs.map .record⟩, ?_, ?_⟩
  · exact NewStore_records recs .eof
  · rw [runOps_durable ops _ rfl]
    simp [List.foldl_append]

/-- Claim C3: from any store state, immediately after Set(k, v) a Get(k)
returns the pair (v, true), and immediately after Unset(k) a Get(k) returns
found = false with the zero-value placeholder. -/
theorem getReflectsLastOp [Inhabited V] (st : StoreState K V) (k : K) (v : V) :
    Get (Set st k v none).1 k = (v, true) ∧
    Get (Unset st k none).1 k = (default, false) := by
  constructor
  · show Get (readUpdate st ⟨0, k, v, st.hasLog⟩ none).1 k = _
    cases hl : st.hasLog with
    | false =>
      rw [readUpdate_not_append _ _ _ rfl, applyUpdate_fst]
      simp [Get, applyRec, recOf]
    | true =>
      rw [readUpdate_append_none _ _ rfl hl, applyUpdate_fst]
      simp [Get, applyRec, recOf]
  · show Get (readUpdate st ⟨1, k, default, st.hasLog⟩ none).1 k = _
    cases hl : st.hasLog with
    | false =>
      rw [readUpdate_not_append _ _ _ rfl, applyUpdate_fst]
      simp [Get, applyRec, recOf]
    | true =>
      rw [readUpdate_append_none _ _ rfl hl, applyUpdate_fst]
      simp [Get, applyRec, recOf]

/-- Claim C4: for every mutation whose durable flag is set, if the log
append fails, then the state (in particular the in-memory map) is unchanged
by that mutation, a non-nil error is surfaced to that mutation's caller, and
the serializer continues processing the subsequent mutations from the
unchanged state. -/
theorem failedAppendAborts (st : StoreState K V) (u : Update K V) (f : Fault)
    (rest : List (Update K V × Option Fault)) (h : u.append = true) :
    ∃ e, readUpdate st u (some f) = (st, ⟨false, some e⟩) ∧
      queueUpdate ⟨false, some e⟩ = some e ∧
      readUpdates st ((u, some f) :: rest) =
        ((readUpdates st rest).1,
          UpdateResult.mk false (some e) :: (readUpdates st rest).2) := by
  have key : ∃ e, appendUpdate st u (some f) = .error e := by
    cases hl : st.hasLog with
    | false => exact ⟨.noLog, by simp [appendUpdate, hl]⟩
    | true =>
      cases f with
      | marshal => exact ⟨.marshalFailure, by simp [appendUpdate, hl]⟩
      | write => exact ⟨.ioFailure, by simp [appendUpdate, hl]⟩
  obtain ⟨e, he⟩ := key
  have hr : readUpdate st u (some f) = (st, ⟨false, some e⟩) := by
    rw [readUpdate, if_pos h, he]
  refine ⟨e, hr, rfl, ?_⟩
  show ((readUpdates (readUpdate st u (some f)).1 rest).1,
      (readUpdate st u (some f)).2 ::
        (readUpdates (readUpdate st u (some f)).1 rest).2) = _
  rw [hr]

/-- Claim C5: a mutation whose kind tag is neither 0 nor 1, processed
without an append fault (and, when its durable flag is set, against a store
that has a log), yields an UnknownOperation failure surfaced to its caller,
leaves the in-memory map unchanged, and the serializer continues with the
subsequent mutations. -/
theorem unknownKindFails (st : StoreState K V) (u : Update K V)
    (rest : List (Update K V × Option Fault))
    (h0 : u.UpdateType ≠ 0) (h1 : u.UpdateType ≠ 1)
    (ha : u.append = false ∨ st.hasLog = true) :
    ∃ st₁ : StoreState K V,
      readUpdate st u none =
        (st₁, ⟨false, some (.unknownOperation u.UpdateType)⟩) ∧
      st₁.data = st.data ∧
      queueUpdate ⟨false, some (.unknownOperation u.UpdateType)⟩ =
        some (.unknownOperation u.UpdateType) ∧
      readUpdates st ((u, none) :: rest) =
        ((readUpdates st₁ rest).1,
          UpdateResult.mk false (some (.unknownOperation u.UpdateType)) ::
            (readUpdates st₁ rest).2) := by
  have happ : ∀ st' : StoreState K V, applyUpdate st' u =
      (st', ⟨false, some (.unknownOperation u.UpdateType)⟩) := by
    intro st'
    rw [applyUpdate, if_neg h0, if_neg h1]
  cases hap : u.append with
  | false =>
    have hr : readUpdate st u none =
        (st, ⟨false, some (.unknownOperation u.UpdateType)⟩) := by
      rw [readUpdate_not_append _ _ _ hap, happ]
    refine ⟨st, hr, rfl, rfl, ?_⟩
    show ((readUpdates (readUpdate st u none).1 rest).1,
        (readUpdate st u none).2 ::
          (readUpdates (readUpdate st u none).1 rest).2) = _
    rw [hr]
  | true =>
    have hl : st.hasLog = true := by
      rcases ha with ha | ha
      · rw [hap] at ha; cases ha
      · exact ha
    have hr : readUpdate st u none =
        ({ st with file := st.file ++ [.record (recOf u)] },
          ⟨false, some (.unknownOperation u.UpdateType)⟩) := by
      rw [readUpdate_append_none _ _ hap hl, happ]
    refine ⟨{ st with file := st.file ++ [.record (recOf u)] }, hr, rfl, rfl, ?_⟩
    show ((readUpdates (readUpdate st u none).1 rest).1,
        (readUpdate st u none).2 ::
          (readUpdates (readUpdate st u none).1 rest).2) = _
    rw [hr]

/-- Every log whose lines include a malformed one makes the scanner loop
fail with the unmarshal error. -/
theorem scanUpdates_malformed (lines : List (LogLine K V)) (ec : ScanEnd) :
    ∀ st : StoreState K V, LogLine.malformed ∈ lines →
      scanUpdates st lines ec = .error .deserializationFailure := by
  induction lines with
  | nil => intro st hm; cases hm
  | cons l rest ih =>
    intro st hm
    cases l with
    | malformed => rfl
    | record r =>
      have hm' : LogLine.malformed ∈ rest := by
        rcases List.mem_cons.mp hm with hm | hm
        · cases hm
        · exact hm
      show scanUpdates (readUpdate st ⟨r.UpdateType, r.Key, r.Value, false⟩ none).1
          rest ec = _
      exact ih _ hm'

/-- Claim C6: for every log file containing a line that fails to
deserialize, store construction with that log path fails with the
deserialization error, and no store instance is returned to the caller. -/
theorem malformedLineFailsConstruction (f : LogFile K V)
    (ho : f.openFails = false) (hm : LogLine.malformed ∈ f.lines) :
    NewStore (some f) = .error KVErr.deserializationFailure := by
  obtain ⟨op, lines, ec⟩ := f
  simp only at ho
  subst ho
  show replayUpdatesFromLog (⟨fun _ => none, true, lines⟩ : StoreState K V)
    lines ec = _
  rw [replayUpdatesFromLog]
  simp only [Bool.true_eq_false, if_false]
  exact scanUpdates_malformed lines ec _ hm

/-- The scanner loop never changes the log file: every update it queues
carries a false append flag. -/
theorem scanUpdates_file (lines : List (LogLine K V)) (ec : ScanEnd) :
    ∀ st st' : StoreState K V, scanUpdates st lines ec = .ok st' →
      st'.file = st.file := by
  induction lines with
  | nil =>
    intro st st' h
    cases h
    rfl
  | cons l rest ih =>
    intro st st' h
    cases l with
    | malformed => cases h
    | record r =>
      have h' : scanUpdates
          (readUpdate st ⟨r.UpdateType, r.Key, r.Value, false⟩ none).1 rest ec =
          .ok st' := h
      rw [readUpdate_not_append _ _ _ rfl, applyUpdate_fst] at h'
      exact ih ⟨applyRec st.data (recOf ⟨r.UpdateType, r.Key, r.Value, false⟩), st.hasLog, st.file⟩ st' h'

/-- Claim C7: replaying the log at startup leaves the log's contents
unchanged: every mutation constructed during replay has its durable flag
unset, so no replayed record is re-appended to the log. -/
theorem replayNeverAppends (st st' : StoreState K V)
    (lines : List (LogLine K V)) (ec : ScanEnd)
    (h : replayUpdatesFromLog st lines ec = .ok st') :
    st'.file = st.file := by
  rw [replayUpdatesFromLog] at h
  by_cases hl : st.hasLog = false
  · rw [if_pos hl] at h
    cases h
  · rw [if_neg hl] at h
    exact scanUpdates_file lines ec st st' h

/-- Claim C8 (code divergence): an I/O failure while reading the log during
replay is silently ignored — the scanner loop ends and replay reports
success, so NewStore returns a store built from the partially replayed
records instead of failing.  Here a one-record log whose scan ends with a
read error still yields a store instance. -/
theorem scanIOErrorIgnored :
    ∃ st : StoreState Nat Nat,
      NewStore (some (⟨false, [LogLine.record ⟨0, 1, 2⟩], .ioError⟩ :
        LogFile Nat Nat)) = .ok st ∧ st.data 1 = some 2 :=
  ⟨_, rfl, rfl⟩

/-- Claim C9: a durable mutation with an unknown kind tag is appended to the
log before the kind is examined: the log grows by exactly that record, even
though the mutation is answered with an UnknownOperation failure and the
in-memory map is unchanged. -/
theorem unknownKindStillAppended (st : StoreState K V) (u : Update K V)
    (hl : st.hasLog = true) (hap : u.append = true)
    (h0 : u.UpdateType ≠ 0) (h1 : u.UpdateType ≠ 1) :
    readUpdate st u none =
      ({ st with file := st.file ++ [LogLine.record (recOf u)] },
        ⟨false, some (KVErr.unknownOperation u.UpdateType)⟩) := by
  rw [readUpdate_append_none _ _ hap hl, applyUpdate, if_neg h0, if_neg h1]

/-- Claim C10: during replay the per-record outcome is discarded: for every
log whose lines all deserialize, store construction succeeds — even when a
record carries an unknown kind tag, NewStore still returns a store, that
record's effect being skipped (the apply fold leaves the map unchanged on an
unknown tag) and its failure never surfacing. -/
theorem replayDiscardsOutcomes (recs : List (Rec K V)) :
    ∃ st : StoreState K V,
      NewStore (some (⟨false, recs.map .record, .eof⟩ : LogFile K V)) =
        .ok st ∧
      st.data = recs.foldl applyRec (fun _ => none) :=
  ⟨⟨recs.foldl applyRec (fun _ => none), true, recs.map .record⟩,
    NewStore_records recs .eof, rfl⟩

/-! Witnesses: each claim theorem with a hypothesis, applied at a concrete
input. -/

/-- Witness for mapEqualsFold at a concrete log and operation sequence. -/
theorem mapEqualsFold_witness :
    (∀ r ∈ ([⟨0, 1, 10⟩, ⟨0, 2, 20⟩, ⟨1, 1, 0⟩] : List (Rec Nat Nat)),
      r.UpdateType = 0 ∨ r.UpdateType = 1) ∧
    ∃ st₀ : StoreState Nat Nat,
      NewStore (some (⟨false,
          ([⟨0, 1, 10⟩, ⟨0, 2, 20⟩, ⟨1, 1, 0⟩] : List (Rec Nat Nat)).map .record,
          .eof⟩ : LogFile Nat Nat)) = .ok st₀ ∧
      (runOps st₀ [Op.set 3 30]).data =
        (([⟨0, 1, 10⟩, ⟨0, 2, 20⟩, ⟨1, 1, 0⟩] : List (Rec Nat Nat)) ++
          ([Op.set 3 30] : List (Op Nat Nat)).map opRec).foldl applyRec
          (fun _ => none) :=
  ⟨by decide, mapEqualsFold _ _ (by decide)⟩

/-- Witness for failedAppendAborts at a concrete update and fault. -/
theorem failedAppendAborts_witness :
    (⟨0, 1, 2, true⟩ : Update Nat Nat).append = true ∧
    ∃ e, readUpdate (⟨fun _ => none, true, []⟩ : StoreState Nat Nat)
        ⟨0, 1, 2, true⟩ (some .write) =
        (⟨fun _ => none, true, []⟩, ⟨false, some e⟩) ∧
      queueUpdate ⟨false, some e⟩ = some e ∧
      readUpdates (⟨fun _ => none, true, []⟩ : StoreState Nat Nat)
          [(⟨0, 1, 2, true⟩, some .write)] =
        ((readUpdates (⟨fun _ => none, true, []⟩ : StoreState Nat Nat) []).1,
          UpdateResult.mk false (some e) ::
            (readUpdates (⟨fun _ => none, true, []⟩ : StoreState Nat Nat) []).2) :=
  ⟨rfl, failedAppendAborts _ _ _ _ rfl⟩

/-- Witness for unknownKindFails at a concrete tag-7 update. -/
theorem unknownKindFails_witness :
    (⟨7, 1, 2, false⟩ : Update Nat Nat).UpdateType ≠ 0 ∧
    (⟨7, 1, 2, false⟩ : Update Nat Nat).UpdateType ≠ 1 ∧
    ((⟨7, 1, 2, false⟩ : Update Nat Nat).append = false ∨
      (⟨fun _ => none, false, []⟩ : StoreState Nat Nat).hasLog = true) ∧
    ∃ st₁ : StoreState Nat Nat,
      readUpdate (⟨fun _ => none, false, []⟩ : StoreState Nat Nat)
          ⟨7, 1, 2, false⟩ none =
        (st₁, ⟨false, some (.unknownOperation
          (⟨7, 1, 2, false⟩ : Update Nat Nat).UpdateType)⟩) ∧
      st₁.data = (⟨fun _ => none, false, []⟩ : StoreState Nat Nat).data ∧
      queueUpdate ⟨false, some (.unknownOperation
          (⟨7, 1, 2, false⟩ : Update Nat Nat).UpdateType)⟩ =
        some (.unknownOperation (⟨7, 1, 2, false⟩ : Update Nat Nat).UpdateType) ∧
      readUpdates (⟨fun _ => none, false, []⟩ : StoreState Nat Nat)
          [(⟨7, 1, 2, false⟩, none)] =
        ((readUpdates st₁ []).1,
          UpdateResult.mk false (some (.unknownOperation
            (⟨7, 1, 2, false⟩ : Update Nat Nat).UpdateType)) ::
            (readUpdates st₁ []).2) :=
  ⟨by decide, by decide, Or.inl rfl,
    unknownKindFails _ _ _ (by decide) (by decide) (Or.inl rfl)⟩

/-- Witness for malformedLineFailsConstruction at a concrete two-line log
whose trailing line is malformed. -/
theorem malformedLineFailsConstruction_witness :
    (⟨false, [LogLine.record ⟨0, 1, 2⟩, LogLine.malformed], .eof⟩ :
      LogFile Nat Nat).openFails = false ∧
    LogLine.malformed ∈ (⟨false, [LogLine.record ⟨0, 1, 2⟩, LogLine.malformed],
      .eof⟩ : LogFile Nat Nat).lines ∧
    NewStore (some (⟨false, [LogLine.record ⟨0, 1, 2⟩, LogLine.malformed],
        .eof⟩ : LogFile Nat Nat)) =
      .error KVErr.deserializationFailure :=
  ⟨rfl, by decide, malformedLineFailsConstruction _ rfl (by decide)⟩

/-- Witness for replayNeverAppends at a concrete one-record replay. -/
theorem replayNeverAppends_witness :
    replayUpdatesFromLog (⟨fun _ => none, true, [LogLine.record ⟨0, 1, 2⟩]⟩ :
        StoreState Nat Nat) [LogLine.record ⟨0, 1, 2⟩] .eof =
      .ok ⟨fun k => if k = 1 then some 2 else none, true,
        [LogLine.record ⟨0, 1, 2⟩]⟩ ∧
    (⟨fun k => if k = 1 then some 2 else none, true,
        [LogLine.record ⟨0, 1, 2⟩]⟩ : StoreState Nat Nat).file =
      (⟨fun _ => none, true, [LogLine.record ⟨0, 1, 2⟩]⟩ :
        StoreState Nat Nat).file :=
  ⟨rfl, replayNeverAppends _ _ [LogLine.record ⟨0, 1, 2⟩] .eof rfl⟩

/-- Witness for unknownKindStillAppended at a concrete tag-9 durable
update. -/
theorem unknownKindStillAppended_witness :
    (⟨fun _ => none, true, []⟩ : StoreState Nat Nat).hasLog = true ∧
    (⟨9, 1, 2, true⟩ : Update Nat Nat).append = true ∧
    (⟨9, 1, 2, true⟩ : Update Nat Nat).UpdateType ≠ 0 ∧
    (⟨9, 1, 2, true⟩ : Update Nat Nat).UpdateType ≠ 1 ∧
    readUpdate (⟨fun _ => none, true, []⟩ : StoreState Nat Nat)
        ⟨9, 1, 2, true⟩ none =
      (⟨fun _ => none, true, [LogLine.record ⟨9, 1, 2⟩]⟩,
        ⟨false, some (KVErr.unknownOperation 9)⟩) :=
  ⟨rfl, rfl, by decide, by decide,
    unknownKindStillAppended _ _ rfl rfl (by decide) (by decide)⟩

end KV
